import Mathlib

/-!
Shallow embedding of the smart-cleaner data-cleaning script (src/main.py).

Strings are modelled as lists of Unicode code points (Nat), tabular data as a
list of typed columns, and the pandas calls used by the script (read_csv,
mean, mode, fillna, drop_duplicates, str.title, to_datetime, to_csv) as Lean
functions on that model.  Numeric cells are modelled as rationals.
-/

deriving instance DecidableEq for Except

namespace SmartClean

/-- Strings as lists of code points. -/
abbrev Str := List Nat

/-- Code points of a Lean string literal, for writing concrete examples. -/
def strChars (s : String) : Str := s.toList.map Char.toNat

/-! ## ASCII case primitives (semantics of Python str.title on ASCII text) -/

/-- Cased (letter) code points in the ASCII range. -/
def isCasedN (n : Nat) : Bool := decide ((65 ≤ n ∧ n ≤ 90) ∨ (97 ≤ n ∧ n ≤ 122))

/-- Uppercase an ASCII letter code point; other code points unchanged. -/
def toUpperN (n : Nat) : Nat := if 97 ≤ n ∧ n ≤ 122 then n - 32 else n

/-- Lowercase an ASCII letter code point; other code points unchanged. -/
def toLowerN (n : Nat) : Nat := if 65 ≤ n ∧ n ≤ 90 then n + 32 else n

/-- Python str.title: a cased character that follows a cased character is
lowercased, a cased character that follows an uncased character (or starts the
string) is uppercased.  The Boolean argument records whether the previous
character was cased. -/
def titleAux : Bool → Str → Str
  | _, [] => []
  | prevCased, n :: rest =>
    if isCasedN n then
      (if prevCased then toLowerN n else toUpperN n) :: titleAux true rest
    else
      n :: titleAux false rest

/-- Python str.title on a whole string. -/
def pyTitle (s : Str) : Str := titleAux false s

/-- Lexicographic (code-point) order on strings, as Python compares str. -/
def lexLe : Str → Str → Bool
  | [], _ => true
  | _ :: _, [] => false
  | a :: as, b :: bs => if a < b then true else if b < a then false else lexLe as bs

/-! ## Data model: cells, dtypes, columns, data frames -/

/-- A cell of a pandas column: a float/int value (as a rational), a string, a
datetime value (timestamp), or the missing sentinel (NaN / NaT). -/
inductive Cell where
  | num (q : Rat)
  | str (s : Str)
  | time (t : Int)
  | missing
deriving DecidableEq

/-- The numpy dtypes relevant to the script. -/
inductive Dtype where
  | float64
  | int64
  | object
  | datetime64
deriving DecidableEq

/-- A named column with its dtype and cells. -/
structure Column where
  name : Str
  dtype : Dtype
  cells : List Cell
deriving DecidableEq

/-- A data frame: an ordered list of columns. -/
structure DataFrame where
  cols : List Column
deriving DecidableEq

/-- Row count: length of the first column (0 for a frame with no columns). -/
def DataFrame.nrows (d : DataFrame) : Nat :=
  match d.cols with
  | [] => 0
  | c :: _ => c.cells.length

/-- Rectangularity: every column has exactly nrows cells. -/
def DataFrame.Rect (d : DataFrame) : Prop :=
  ∀ c ∈ d.cols, c.cells.length = d.nrows

instance (d : DataFrame) : Decidable d.Rect := by
  unfold DataFrame.Rect; infer_instance

/-- A cell admissible for a dtype: float64 holds numbers or NaN, int64 holds
numbers only (an int64 column cannot hold NaN), object holds strings or NaN,
datetime64 holds timestamps or NaT. -/
def cellOkay : Dtype → Cell → Bool
  | .float64, .num _ => true
  | .float64, .missing => true
  | .int64, .num _ => true
  | .object, .str _ => true
  | .object, .missing => true
  | .datetime64, .time _ => true
  | .datetime64, .missing => true
  | _, _ => false

/-- A well-formed frame: rectangular, with cells matching each dtype. -/
def DataFrame.WF (d : DataFrame) : Prop :=
  d.Rect ∧ ∀ c ∈ d.cols, ∀ x ∈ c.cells, cellOkay c.dtype x = true

instance (d : DataFrame) : Decidable d.WF := by
  unfold DataFrame.WF; infer_instance

/-! ## pandas primitives used by the script -/

/-- Numeric values of a list of cells (NaN and non-numeric cells skipped). -/
def numVals (cells : List Cell) : List Rat :=
  cells.filterMap fun x => match x with
    | .num q => some q
    | _ => none

/-- Series.mean: arithmetic mean of the present numeric values, NaN (none)
when there are no present values. -/
def seriesMean (cells : List Cell) : Option Rat :=
  if (numVals cells).length = 0 then none
  else some ((numVals cells).sum / ((numVals cells).length : Rat))

/-- Present (non-missing) cells of a series. -/
def presentCells (cells : List Cell) : List Cell :=
  cells.filter fun x => decide (x ≠ Cell.missing)

/-- Comparison used when pandas sorts the values of a mode result.  Cells of
distinct shapes are ranked arbitrarily but fixed (a homogeneous column only
ever compares cells of the same shape); numbers compare as rationals, strings
lexicographically, timestamps as integers. -/
def cellLeB : Cell → Cell → Bool
  | .num a, .num b => decide (a ≤ b)
  | .num _, _ => true
  | .str _, .num _ => false
  | .str a, .str b => lexLe a b
  | .str _, _ => true
  | .time _, .num _ => false
  | .time _, .str _ => false
  | .time a, .time b => decide (a ≤ b)
  | .time _, .missing => true
  | .missing, .missing => true
  | .missing, _ => false

/-- The relation form of cellLeB, for sorting. -/
def CellLe (a b : Cell) : Prop := cellLeB a b = true

instance : DecidableRel CellLe := fun a b => by
  unfold CellLe; infer_instance

/-- Largest multiplicity among the present values. -/
def maxCount (p : List Cell) : Nat :=
  (p.map fun v => p.count v).foldr max 0

/-- Series.mode: the distinct present values of maximal multiplicity, sorted
ascending (missing values dropped, as pandas mode does by default). -/
def seriesMode (cells : List Cell) : List Cell :=
  ((presentCells cells).dedup.filter fun v =>
    decide ((presentCells cells).count v = maxCount (presentCells cells))).insertionSort
    CellLe

/-- mode()[0]: the first (least) mode; none models the KeyError raised by
positional lookup on an empty mode result. -/
def seriesModeFirst (cells : List Cell) : Option Cell :=
  (seriesMode cells).head?

/-- Series.fillna with a scalar value: replace every missing cell. -/
def fillna (v : Cell) (cells : List Cell) : List Cell :=
  cells.map fun x => if x = Cell.missing then v else x

/-- Elementwise .str.title on an object column: strings are title-cased,
missing stays missing, and a non-string element maps to NaN (pandas .str
semantics; such elements never occur in a well-formed object column). -/
def strTitleCell : Cell → Cell
  | .str s => .str (pyTitle s)
  | .missing => .missing
  | _ => .missing

/-- Elementwise pd.to_datetime with coercion of errors, applied by the script
only to a series that already has dtype datetime64.  Such a series holds only
timestamps and NaT, on which the call is the identity; any other cell cannot
occur there and would coerce to NaT. -/
def toDatetimeCoerce : Cell → Cell
  | .time t => .time t
  | _ => .missing

/-! ## Row view and drop_duplicates -/

/-- Rows of a list of column cell-lists: row i is the list of i-th cells. -/
def rowsAux : Nat → List (List Cell) → List (List Cell)
  | 0, _ => []
  | n + 1, cols => (cols.map fun c => c.headD Cell.missing) :: rowsAux n (cols.map List.tail)

/-- The rows of a frame, in order. -/
def DataFrame.rows (d : DataFrame) : List (List Cell) :=
  rowsAux d.nrows (d.cols.map Column.cells)

/-- Keep-flags for drop_duplicates with keep=first: a row is kept exactly
when it has not been seen before. -/
def keepFlagsAux (seen : List (List Cell)) : List (List Cell) → List Bool
  | [] => []
  | r :: rs => decide (r ∉ seen) :: keepFlagsAux (r :: seen) rs

def keepFlags (rs : List (List Cell)) : List Bool := keepFlagsAux [] rs

/-- Keep the entries of a list selected by a Boolean mask. -/
def maskList {α : Type} : List Bool → List α → List α
  | true :: fs, x :: xs => x :: maskList fs xs
  | false :: fs, _ :: xs => maskList fs xs
  | _, _ => []

/-- Number of true flags. -/
def countTrue : List Bool → Nat
  | [] => 0
  | true :: l => countTrue l + 1
  | false :: l => countTrue l

/-! ## Loading (pd.read_csv) -/

/-- States of the input file, matching the exceptions the constructor
catches: absent file, file with nothing to parse, file that fails the parser,
or well-formed content.  Well-formed content is a header and raw rows, where
each raw field is either an NA token (none) or a character string. -/
inductive FileState where
  | absent
  | empty
  | malformed
  | content (header : List Str) (rawRows : List (List (Option Str)))

inductive LoadError where
  | fileNotFound
  | emptyData
  | parseFailure
deriving DecidableEq

/-- Digit code points 0-9. -/
def isDigitN (n : Nat) : Bool := decide (48 ≤ n ∧ n ≤ 57)

def allDigits (l : Str) : Bool := l.all isDigitN

/-- Value of a digit string. -/
def digitsToNat (l : Str) : Nat := l.foldl (fun acc d => acc * 10 + (d - 48)) 0

/-- Parse an unsigned decimal numeral, with an optional single decimal
point. -/
def parseUnsigned (l : Str) : Option Rat :=
  let ip := l.takeWhile fun n => decide (n ≠ 46)
  match l.dropWhile fun n => decide (n ≠ 46) with
  | [] =>
    if allDigits ip ∧ ip ≠ [] then some ((digitsToNat ip : Nat) : Rat) else none
  | _ :: fp =>
    if allDigits ip ∧ allDigits fp ∧ (ip ≠ [] ∨ fp ≠ []) then
      some (((digitsToNat ip : Nat) : Rat) + ((digitsToNat fp : Nat) : Rat) / (10 : Rat) ^ fp.length)
    else none

/-- Parse a decimal numeral with optional sign, as the CSV reader converts
numeric fields. -/
def parseNum (l : Str) : Option Rat :=
  match l with
  | 45 :: rest => (parseUnsigned rest).map fun q => -q
  | 43 :: rest => parseUnsigned rest
  | _ => parseUnsigned l

/-- A field that is an optionally signed run of digits (no decimal point),
used for int64 inference. -/
def isIntToken (l : Str) : Bool :=
  match l with
  | 45 :: rest => allDigits rest && decide (rest ≠ [])
  | 43 :: rest => allDigits rest && decide (rest ≠ [])
  | _ => allDigits l && decide (l ≠ [])

/-- read_csv type inference for one column of raw fields: int64 when every
field is present and an integer numeral, float64 when every present field is
numeric (in particular when the column is entirely missing), object (strings)
otherwise.  read_csv never infers a datetime64 column. -/
def inferDtype (raw : List (Option Str)) : Dtype :=
  if (raw.filterMap id).all fun s => (parseNum s).isSome then
    if (raw.all Option.isSome) && (raw.filterMap id).all isIntToken then .int64
    else .float64
  else .object

def inferCells (raw : List (Option Str)) : List Cell :=
  if (raw.filterMap id).all fun s => (parseNum s).isSome then
    raw.map fun f => match f with
      | some s => .num ((parseNum s).getD 0)
      | none => .missing
  else
    raw.map fun f => match f with
      | some s => .str s
      | none => .missing

def inferColumn (name : Str) (raw : List (Option Str)) : Column :=
  ⟨name, inferDtype raw, inferCells raw⟩

/-- pd.read_csv on the modelled file states. -/
def read_csv : FileState → Except LoadError DataFrame
  | .absent => .error .fileNotFound
  | .empty => .error .emptyData
  | .malformed => .error .parseFailure
  | .content header rawRows =>
    .ok ⟨(List.range header.length).map fun j =>
      inferColumn (header.getD j []) (rawRows.map fun r => r.getD j none)⟩

/-! ## The SmartCleaner class -/

/-- The pipeline state: the (nullable) loaded data frame. -/
structure Cleaner where
  data : Option DataFrame
deriving DecidableEq

/-- Unhandled Python exceptions the script can raise. -/
inductive PyErr where
  | keyError
deriving DecidableEq

/-- Diagnostic printed by the constructor on each load failure. -/
def loadErrMsg : LoadError → Str → Str
  | .fileNotFound, path => strChars (r"Error: File not found at ") ++ path
  | .emptyData, _ => strChars (r"Error: The file is empty.")
  | .parseFailure, _ => strChars (r"Error: Could not parse the file.")

/-- The constructor: try read_csv, catching the three load exceptions; on
failure the dataset is left null and a diagnostic is printed. -/
def construct (path : Str) (fs : FileState) : Cleaner × Str :=
  match read_csv fs with
  | .ok df => (⟨some df⟩, strChars (r"Data successfully loaded."))
  | .error e => (⟨none⟩, loadErrMsg e path)

/-- summarize_data: prints a summary when data is present (the statistics
text itself is not modelled), an advisory otherwise; never mutates. -/
def summarize_data (st : Cleaner) : Cleaner × Str :=
  match st.data with
  | some _ => (st, strChars (r"Dataset Summary:"))
  | none => (st, strChars (r"No data to summarize."))

/-- identify_missing_values: prints missing-value counts when data is present
(the counts text itself is not modelled), an advisory otherwise; never
mutates. -/
def identify_missing_values (st : Cleaner) : Cleaner × Str :=
  match st.data with
  | some _ => (st, strChars (r"Missing Values Summary:"))
  | none => (st, strChars (r"No data to analyze for missing values."))

/-- Imputation of one column, as the loop body of handle_missing_values: a
float64 or int64 column is fillna-ed with its mean (fillna with NaN, when the
mean does not exist, changes nothing); any other column is fillna-ed with
mode()[0], which raises KeyError when the mode result is empty. -/
def imputeColumn (c : Column) : Except PyErr Column :=
  if c.dtype = .float64 ∨ c.dtype = .int64 then
    match seriesMean c.cells with
    | some m => .ok ⟨c.name, c.dtype, fillna (.num m) c.cells⟩
    | none => .ok c
  else
    match seriesModeFirst c.cells with
    | some m => .ok ⟨c.name, c.dtype, fillna m c.cells⟩
    | none => .error .keyError

def imputeCols : List Column → Except PyErr (List Column)
  | [] => .ok []
  | c :: cs =>
    match imputeColumn c with
    | .error e => .error e
    | .ok c2 =>
      match imputeCols cs with
      | .error e => .error e
      | .ok cs2 => .ok (c2 :: cs2)

/-- handle_missing_values on a loaded frame. -/
def handle_missing_values (d : DataFrame) : Except PyErr DataFrame :=
  (imputeCols d.cols).map DataFrame.mk

/-- handle_missing_values as the class method. -/
def handle_missing_valuesM (st : Cleaner) : Except PyErr (Cleaner × Str) :=
  match st.data with
  | some df =>
    (handle_missing_values df).map fun df2 =>
      (⟨some df2⟩, strChars (r"Missing values handled by mean/mode imputation."))
  | none => .ok (st, strChars (r"No data to handle missing values."))

/-- drop_duplicates(keep=first) on a loaded frame: keep exactly the rows with
no earlier equal row. -/
def remove_duplicates (d : DataFrame) : DataFrame :=
  ⟨d.cols.map fun c => ⟨c.name, c.dtype, maskList (keepFlags d.rows) c.cells⟩⟩

/-- The number the method reports: initial rows minus final rows. -/
def removedCount (d : DataFrame) : Nat := d.nrows - (remove_duplicates d).nrows

def natDigits (n : Nat) : Str := (Nat.toDigits 10 n).map Char.toNat

/-- remove_duplicates as the class method. -/
def remove_duplicatesM (st : Cleaner) : Cleaner × Str :=
  match st.data with
  | some df =>
    (⟨some (remove_duplicates df)⟩,
      strChars (r"Duplicates removed: ") ++ natDigits (removedCount df))
  | none => (st, strChars (r"No data from which to remove duplicates."))

/-- The loop body of fix_inconsistent_formats: a datetime64 column is
re-parsed with pd.to_datetime(errors coerced), an object (string) column is
title-cased elementwise, any other column is untouched. -/
def fixColumn (c : Column) : Column :=
  if c.dtype = .datetime64 then ⟨c.name, c.dtype, c.cells.map toDatetimeCoerce⟩
  else if c.dtype = .object then ⟨c.name, c.dtype, c.cells.map strTitleCell⟩
  else c

/-- fix_inconsistent_formats on a loaded frame. -/
def fix_inconsistent_formats (d : DataFrame) : DataFrame :=
  ⟨d.cols.map fixColumn⟩

/-- fix_inconsistent_formats as the class method. -/
def fix_inconsistent_formatsM (st : Cleaner) : Cleaner × Str :=
  match st.data with
  | some df =>
    (⟨some (fix_inconsistent_formats df)⟩,
      strChars (r"Inconsistent formats fixed where applicable."))
  | none => (st, strChars (r"No data to fix formats."))

/-! ## Saving (df.to_csv(output_path, index=False)) -/

/-- Textual form of a natural number. -/
def intText (i : Int) : Str :=
  if i < 0 then 45 :: natDigits (-i).toNat else natDigits i.toNat

/-- Fractional digits of a rational in [0, 1), up to the given fuel. -/
def fracDigits : Nat → Rat → Str
  | 0, _ => []
  | fuel + 1, q =>
    let q10 := q * 10
    let d := q10.floor
    if q10 - (d : Rat) = 0 then [48 + d.toNat]
    else (48 + d.toNat) :: fracDigits fuel (q10 - (d : Rat))

/-- Textual form of a numeric cell for a given dtype: int64 prints the
integer, float64 prints a decimal with a fractional part (decimal rendering
is modelled for terminating expansions; the binary floating detail of the
source is out of scope of every claim). -/
def ratText (t : Dtype) (q : Rat) : Str :=
  if t = .int64 then intText q.num
  else
    (if q < 0 then [45] else []) ++
      intText |q|.floor ++ [46] ++
      (if |q| - (|q|.floor : Rat) = 0 then [48] else fracDigits 30 (|q| - (|q|.floor : Rat)))

/-- Textual form of one field: missing serializes as the empty field. -/
def fieldText (t : Dtype) : Cell → Str
  | .num q => ratText t q
  | .str s => s
  | .time n => intText n
  | .missing => []

/-- to_csv with index=False: the header row of column names first, then each
data row, with no implicit row-index column. -/
def serialize (d : DataFrame) : List (List Str) :=
  (d.cols.map Column.name) ::
    d.rows.map fun r => (d.cols.zip r).map fun p => fieldText p.1.dtype p.2

/-- Outcome of the underlying file write. -/
inductive FsOutcome where
  | ok
  | err (msg : Str)

/-- save_clean_data: serialize and write when data is present; an OS failure
is caught and reported with the underlying message; advisory when data is
absent.  Returns the (unchanged) state, the written file if any, and the
printed message. -/
def save_clean_dataM (st : Cleaner) (outputPath : Str) (w : FsOutcome) :
    Cleaner × Option (List (List Str)) × Str :=
  match st.data with
  | some df =>
    match w with
    | .ok => (st, some (serialize df), strChars (r"Cleaned data saved to ") ++ outputPath)
    | .err m => (st, none, strChars (r"Error when saving data: ") ++ m)
  | none => (st, none, strChars (r"No data to save."))

/-! ## The driver script -/

/-- The driver: construct once, then run the six steps unconditionally in
order.  A normal exit (exit code 0) is the ok result; an uncaught exception
(only the impute KeyError is possible) is the error result.  Returns the
final state, the printed messages in order, and the written file if any. -/
def runPipeline (path outPath : Str) (fs : FileState) (w : FsOutcome) :
    Except PyErr (Cleaner × List Str × Option (List (List Str))) :=
  let (st0, m0) := construct path fs
  let (st1, m1) := summarize_data st0
  let (st2, m2) := identify_missing_values st1
  match handle_missing_valuesM st2 with
  | .error e => .error e
  | .ok (st3, m3) =>
    let (st4, m4) := remove_duplicatesM st3
    let (st5, m5) := fix_inconsistent_formatsM st4
    let (st6, file, m6) := save_clean_dataM st5 outPath w
    .ok (st6, [m0, m1, m2, m3, m4, m5, m6], file)

/-- Spec-side definition, for refinement comparison only (it follows the
wording of the specification, not the source): title case with
whitespace-delimited word boundaries, capitalizing the first character of
each whitespace-delimited word and lowercasing the remaining letters of the
word.  The Boolean argument records whether the next character starts a
word. -/
def wsTitleAux : Bool → Str → Str
  | _, [] => []
  | atStart, n :: rest =>
    if n = 32 ∨ n = 9 ∨ n = 10 ∨ n = 13 then n :: wsTitleAux true rest
    else (if atStart then toUpperN n else toLowerN n) :: wsTitleAux false rest

/-- Spec-side whitespace-boundary title casing of a whole string. -/
def wsTitle (s : Str) : Str := wsTitleAux true s

/-! ## Concrete example data, used by witnesses and counterexamples -/

/-- Columns a and b with rows (1, x), (2, y), (1, x). -/
def dfDupExample : DataFrame :=
  ⟨[⟨[97], .int64, [.num 1, .num 2, .num 1]⟩,
    ⟨[98], .object, [.str [120], .str [121], .str [120]]⟩]⟩

/-- A numeric column and a text column with a duplicate row and a missing
cell. -/
def dfIdemExample : DataFrame :=
  ⟨[⟨[97], .int64, [.num 1, .num 2, .num 1]⟩,
    ⟨[116], .object, [.str [104, 105], .missing, .str [104, 105]]⟩]⟩

/-- An int column and a text column holding the string hello world. -/
def dfTitleExample : DataFrame :=
  ⟨[⟨[110], .int64, [.num 5, .num 6]⟩,
    ⟨[116], .object, [.str (strChars (r"hello world")), .missing]⟩]⟩

/-- One text column holding the single string a-b. -/
def dfHyphenExample : DataFrame :=
  ⟨[⟨[99], .object, [.str (strChars (r"a-b"))]⟩]⟩

/-- The frame read_csv produces for a one-column file whose only field is an
NA token: a float64 column holding one NaN. -/
def dfAllMissing : DataFrame := ⟨[⟨[109], .float64, [.missing]⟩]⟩

/-- The same shape as dfAllMissing under another column name. -/
def dfAllMissingV : DataFrame := ⟨[⟨[118], .float64, [.missing]⟩]⟩

/-- The frame read_csv produces for a one-column file holding the field
not-a-date: an object column, not a temporal one. -/
def dfNotADate : DataFrame :=
  ⟨[⟨[100], .object, [.str (strChars (r"not-a-date"))]⟩]⟩

/-- A numeric column with present values 1, 3, 2 and one missing cell, and a
text column with values a, a, b and one missing cell. -/
def dfImputeExample : DataFrame :=
  ⟨[⟨[110], .float64, [.num 1, .missing, .num 3, .num 2]⟩,
    ⟨[116], .object, [.str [97], .str [97], .missing, .str [98]]⟩]⟩

/-- A text column whose present values b and a are tied for most frequent. -/
def colTieExample : Column := ⟨[99], .object, [.str [98], .str [97], .missing]⟩

/-- A one-column datetime frame, for instantiating facts about the temporal
branch (such a frame can never be produced by read_csv). -/
def colTimeExample : Column := ⟨[115], .datetime64, [.time 0, .missing]⟩

/-! ## Lemmas about the ASCII case primitives and title casing -/

theorem isCasedN_toUpperN (n : Nat) : isCasedN (toUpperN n) = isCasedN n := by
  unfold isCasedN toUpperN
  rw [decide_eq_decide]
  split <;> omega

theorem isCasedN_toLowerN (n : Nat) : isCasedN (toLowerN n) = isCasedN n := by
  unfold isCasedN toLowerN
  rw [decide_eq_decide]
  split <;> omega

theorem toUpperN_toUpperN (n : Nat) : toUpperN (toUpperN n) = toUpperN n := by
  unfold toUpperN
  by_cases h : 97 <= n /\ n <= 122
  . simp only [if_pos h]
    rw [if_neg (by omega)]
  . simp only [if_neg h]

theorem toLowerN_toLowerN (n : Nat) : toLowerN (toLowerN n) = toLowerN n := by
  unfold toLowerN
  by_cases h : 65 <= n /\ n <= 90
  . simp only [if_pos h]
    rw [if_neg (by omega)]
  . simp only [if_neg h]

/-- Titling an already-titled string changes nothing (with any agreeing
initial flag). -/
theorem titleAux_idem (l : Str) : forall b : Bool, titleAux b (titleAux b l) = titleAux b l := by
  induction l with
  | nil => intro b; rfl
  | cons n rest ih =>
    intro b
    by_cases hc : isCasedN n = true
    . cases b with
      | true =>
        have h1 : titleAux true (n :: rest) = toLowerN n :: titleAux true rest := by
          simp [titleAux, hc]
        rw [h1]
        have h2 : titleAux true (toLowerN n :: titleAux true rest) =
            toLowerN (toLowerN n) :: titleAux true (titleAux true rest) := by
          simp [titleAux, isCasedN_toLowerN, hc]
        rw [h2, toLowerN_toLowerN, ih true]
      | false =>
        have h1 : titleAux false (n :: rest) = toUpperN n :: titleAux true rest := by
          simp [titleAux, hc]
        rw [h1]
        have h2 : titleAux false (toUpperN n :: titleAux true rest) =
            toUpperN (toUpperN n) :: titleAux true (titleAux true rest) := by
          simp [titleAux, isCasedN_toUpperN, hc]
        rw [h2, toUpperN_toUpperN, ih true]
    . have h1 : forall b2 : Bool, titleAux b2 (n :: rest) = n :: titleAux false rest := by
        intro b2; simp [titleAux, hc]
      rw [h1 b]
      have h3 : titleAux b (n :: titleAux false rest) =
          n :: titleAux false (titleAux false rest) := by
        simp [titleAux, hc]
      rw [h3, ih false]

theorem pyTitle_idem (s : Str) : pyTitle (pyTitle s) = pyTitle s :=
  titleAux_idem s false

/-! ## Lemmas about the cell ordering -/

theorem lexLe_refl (l : Str) : lexLe l l = true := by
  induction l with
  | nil => rfl
  | cons a as ih => simp [lexLe, ih]

theorem lexLe_total (x y : Str) : lexLe x y = true ∨ lexLe y x = true := by
  induction x generalizing y with
  | nil => left; rfl
  | cons a as ih =>
    cases y with
    | nil => right; rfl
    | cons b bs =>
      rcases Nat.lt_trichotomy a b with h | h | h
      · left; simp [lexLe, h]
      · subst h
        rcases ih bs with h2 | h2
        · left; simp [lexLe, h2]
        · right; simp [lexLe, h2]
      · right; simp [lexLe, h]

theorem lexLe_trans (x y z : Str) (h1 : lexLe x y = true) (h2 : lexLe y z = true) :
    lexLe x z = true := by
  induction x generalizing y z with
  | nil => rfl
  | cons a as ih =>
    cases y with
    | nil => simp [lexLe] at h1
    | cons b bs =>
      cases z with
      | nil => simp [lexLe] at h2
      | cons c cs =>
        simp only [lexLe] at h1 h2 ⊢
        rcases Nat.lt_trichotomy a b with hab | hab | hab
        · rcases Nat.lt_trichotomy b c with hbc | hbc | hbc
          · simp [show a < c by omega]
          · subst hbc; simp [hab]
          · simp [hbc, show ¬ b < c by omega] at h2
        · subst hab
          rcases Nat.lt_trichotomy a c with hac | hac | hac
          · simp [hac]
          · subst hac
            simp [show ¬ a < a by omega] at h1 h2 ⊢
            exact ih bs cs h1 h2
          · simp [hac, show ¬ a < c by omega] at h2
        · simp [hab, show ¬ a < b by omega] at h1

theorem cellLeB_refl (a : Cell) : cellLeB a a = true := by
  cases a <;> simp [cellLeB, lexLe_refl]

theorem cellLeB_total (a b : Cell) : cellLeB a b = true ∨ cellLeB b a = true := by
  cases a <;> cases b <;> simp [cellLeB]
  · exact le_total _ _
  · exact lexLe_total _ _
  · exact le_total _ _

theorem cellLeB_trans (a b c : Cell) (h1 : cellLeB a b = true) (h2 : cellLeB b c = true) :
    cellLeB a c = true := by
  cases a <;> cases b <;> cases c <;> simp_all [cellLeB]
  · exact le_trans h1 h2
  · exact lexLe_trans _ _ _ h1 h2
  · exact le_trans h1 h2

instance : IsTotal Cell CellLe := ⟨cellLeB_total⟩

instance : IsTrans Cell CellLe := ⟨cellLeB_trans⟩

instance : IsRefl Cell CellLe := ⟨cellLeB_refl⟩

/-! ## Lemmas about mean and mode -/

theorem le_foldrMax (l : List Nat) (n : Nat) (h : n ∈ l) : n ≤ l.foldr max 0 := by
  induction l with
  | nil => cases h
  | cons a as ih =>
    rw [List.foldr_cons]
    rcases List.mem_cons.mp h with rfl | h2
    · exact le_max_left _ _
    · exact le_trans (ih h2) (le_max_right _ _)

theorem foldrMax_mem (l : List Nat) (h : l ≠ []) : l.foldr max 0 ∈ l := by
  induction l with
  | nil => exact absurd rfl h
  | cons a as ih =>
    cases as with
    | nil => simp
    | cons b bs =>
      rw [List.foldr_cons]
      rcases le_or_lt ((b :: bs).foldr max 0) a with hle | hlt
      · rw [max_eq_left hle]
        exact List.mem_cons_self _ _
      · rw [max_eq_right (le_of_lt hlt)]
        exact List.mem_cons_of_mem _ (ih (by simp))

theorem count_le_maxCount (p : List Cell) (v : Cell) (h : v ∈ p) :
    p.count v ≤ maxCount p :=
  le_foldrMax _ _ (List.mem_map_of_mem _ h)

theorem maxCount_attained (p : List Cell) (h : p ≠ []) :
    ∃ v ∈ p, p.count v = maxCount p := by
  have hm : maxCount p ∈ p.map fun v => p.count v := by
    apply foldrMax_mem
    simpa using h
  rcases List.mem_map.mp hm with ⟨v, hv, he⟩
  exact ⟨v, hv, he⟩

theorem sorted_head_le {l : List Cell} (hs : List.Sorted CellLe l) {m : Cell}
    (hm : l.head? = some m) : ∀ w ∈ l, CellLe m w := by
  cases l with
  | nil => simp at hm
  | cons a t =>
    obtain rfl : a = m := by simpa using hm
    intro w hw
    rcases List.mem_cons.mp hw with rfl | hw2
    · exact cellLeB_refl w
    · exact (List.sorted_cons.mp hs).1 w hw2

theorem mem_seriesMode (cells : List Cell) (x : Cell) :
    x ∈ seriesMode cells ↔
      x ∈ presentCells cells ∧
        (presentCells cells).count x = maxCount (presentCells cells) := by
  unfold seriesMode
  rw [(List.perm_insertionSort CellLe _).mem_iff, List.mem_filter, List.mem_dedup]
  simp

/-- Full specification of mode()[0] on a series with at least one present
value: it returns the least (in the cell order) among the present values of
maximal multiplicity. -/
theorem seriesModeFirst_spec (cells : List Cell) (h : presentCells cells ≠ []) :
    ∃ m, seriesModeFirst cells = some m ∧
      m ∈ presentCells cells ∧
      (presentCells cells).count m = maxCount (presentCells cells) ∧
      ∀ w ∈ presentCells cells,
        (presentCells cells).count w = maxCount (presentCells cells) → CellLe m w := by
  rcases maxCount_attained _ h with ⟨v, hv, hc⟩
  have hvmode : v ∈ seriesMode cells := (mem_seriesMode cells v).mpr ⟨hv, hc⟩
  have hne : seriesMode cells ≠ [] := by
    intro h0
    rw [h0] at hvmode
    cases hvmode
  rcases List.exists_mem_of_ne_nil _ hne with ⟨m0, _⟩
  cases hhead : (seriesMode cells).head? with
  | none =>
    rw [List.head?_eq_none_iff] at hhead
    exact absurd hhead hne
  | some m =>
    refine ⟨m, hhead, ?_, ?_, ?_⟩
    · have : m ∈ seriesMode cells := List.mem_of_mem_head? hhead
      exact ((mem_seriesMode cells m).mp this).1
    · have : m ∈ seriesMode cells := List.mem_of_mem_head? hhead
      exact ((mem_seriesMode cells m).mp this).2
    · intro w hw hwc
      have hwmode : w ∈ seriesMode cells := (mem_seriesMode cells w).mpr ⟨hw, hwc⟩
      have hsorted : List.Sorted CellLe (seriesMode cells) :=
        List.sorted_insertionSort CellLe _
      exact sorted_head_le hsorted hhead w hwmode

/-! ## Lemmas about masking, keep-flags and the row view -/

theorem maskList_nil_left {α : Type} (xs : List α) : maskList [] xs = [] := rfl

theorem maskList_sublist {α : Type} :
    ∀ (flags : List Bool) (xs : List α), (maskList flags xs).Sublist xs := by
  intro flags
  induction flags with
  | nil => intro xs; exact List.nil_sublist xs
  | cons b fs ih =>
    intro xs
    cases xs with
    | nil =>
      cases b with
      | true => exact List.nil_sublist []
      | false => exact List.nil_sublist []
    | cons x xs2 =>
      cases b with
      | true => exact (ih xs2).cons₂ x
      | false => exact (ih xs2).cons x

theorem maskList_length {α : Type} :
    ∀ (flags : List Bool) (xs : List α), xs.length = flags.length →
      (maskList flags xs).length = countTrue flags := by
  intro flags
  induction flags with
  | nil => intro xs h; rw [maskList_nil_left]; rfl
  | cons b fs ih =>
    intro xs h
    cases xs with
    | nil => simp at h
    | cons x xs2 =>
      have h2 : xs2.length = fs.length := by simpa using h
      cases b with
      | true => simp [maskList, countTrue, ih xs2 h2]
      | false => simp [maskList, countTrue, ih xs2 h2]

theorem maskList_replicate_true {α : Type} :
    ∀ (xs : List α), maskList (List.replicate xs.length true) xs = xs := by
  intro xs
  induction xs with
  | nil => rfl
  | cons x xs2 ih => simp [List.replicate, maskList, ih]

theorem rowsAux_length : ∀ (n : Nat) (cols : List (List Cell)),
    (rowsAux n cols).length = n := by
  intro n
  induction n with
  | zero => intro cols; rfl
  | succ m ih => intro cols; simp [rowsAux, ih]

theorem rowsAux_row_length : ∀ (n : Nat) (cols : List (List Cell)),
    ∀ r ∈ rowsAux n cols, r.length = cols.length := by
  intro n
  induction n with
  | zero => intro cols r hr; cases hr
  | succ m ih =>
    intro cols r hr
    rcases List.mem_cons.mp hr with rfl | hr2
    · simp
    · rw [ih (cols.map List.tail) r hr2]
      simp

theorem keepFlagsAux_length :
    ∀ (rs seen : List (List Cell)), (keepFlagsAux seen rs).length = rs.length := by
  intro rs
  induction rs with
  | nil => intro seen; rfl
  | cons r rs2 ih => intro seen; simp [keepFlagsAux, ih]

/-- The keep-flag at position i is true exactly when row i is not in the
initial seen set and differs from every earlier row. -/
theorem keepFlagsAux_true_iff :
    ∀ (rs seen : List (List Cell)) (i : Nat) (hi : i < rs.length)
      (hf : i < (keepFlagsAux seen rs).length),
      ((keepFlagsAux seen rs)[i] = true ↔
        (rs[i] ∉ seen ∧ ∀ k, (hk : k < i) → rs[k] ≠ rs[i])) := by
  intro rs
  induction rs with
  | nil => intro seen i hi; exact absurd hi (Nat.not_lt_zero i)
  | cons r rs2 ih =>
    intro seen i hi hf
    cases i with
    | zero =>
      simp only [keepFlagsAux, List.getElem_cons_zero, decide_eq_true_iff]
      constructor
      · intro h
        exact ⟨h, fun k hk => absurd hk (Nat.not_lt_zero k)⟩
      · intro h
        exact h.1
    | succ j =>
      have hi2 : j < rs2.length := by simpa using hi
      have hf2 : j < (keepFlagsAux (r :: seen) rs2).length := by
        rw [keepFlagsAux_length]; exact hi2
      simp only [keepFlagsAux, List.getElem_cons_succ]
      rw [ih (r :: seen) j hi2 hf2]
      constructor
      · rintro ⟨hnotin, hall⟩
        have hne : rs2[j] ≠ r := fun he => hnotin (he ▸ List.mem_cons_self r seen)
        have hnseen : rs2[j] ∉ seen := fun hm => hnotin (List.mem_cons_of_mem r hm)
        refine ⟨hnseen, ?_⟩
        intro k hk
        cases k with
        | zero => simpa using fun he => hne he.symm
        | succ k2 =>
          have hk2 : k2 < j := by omega
          simpa using hall k2 hk2
      · rintro ⟨hnseen, hall⟩
        constructor
        · intro hmem
          rcases List.mem_cons.mp hmem with he | hm
          · have h0 : (0 : Nat) < j + 1 := by omega
            have h0b := hall 0 h0
            simp at h0b
            exact h0b he.symm
          · exact hnseen hm
        · intro k hk
          have hk1 : k + 1 < j + 1 := by omega
          have hkb := hall (k + 1) hk1
          simpa using hkb

/-- The rows surviving drop_duplicates are pairwise distinct and avoid the
seen set. -/
theorem maskKeep_nodup :
    ∀ (rs seen : List (List Cell)),
      (maskList (keepFlagsAux seen rs) rs).Nodup ∧
        ∀ r ∈ maskList (keepFlagsAux seen rs) rs, r ∉ seen := by
  intro rs
  induction rs with
  | nil =>
    intro seen
    exact ⟨List.nodup_nil, fun r hr => absurd hr (List.not_mem_nil r)⟩
  | cons r rs2 ih =>
    intro seen
    by_cases hmem : r ∈ seen
    · have e : keepFlagsAux seen (r :: rs2) = false :: keepFlagsAux (r :: seen) rs2 := by
        simp [keepFlagsAux, hmem]
      rw [e]
      simp only [maskList]
      rcases ih (r :: seen) with ⟨hnd, hnin⟩
      exact ⟨hnd, fun x hx hxseen => hnin x hx (List.mem_cons_of_mem r hxseen)⟩
    · have e : keepFlagsAux seen (r :: rs2) = true :: keepFlagsAux (r :: seen) rs2 := by
        simp [keepFlagsAux, hmem]
      rw [e]
      simp only [maskList]
      rcases ih (r :: seen) with ⟨hnd, hnin⟩
      constructor
      · rw [List.nodup_cons]
        exact ⟨fun hr => hnin r hr (List.mem_cons_self r seen), hnd⟩
      · intro x hx
        rcases List.mem_cons.mp hx with rfl | hx2
        · exact hmem
        · exact fun hxseen => hnin x hx2 (List.mem_cons_of_mem r hxseen)

/-- On a duplicate-free list every keep-flag is true. -/
theorem keepFlagsAux_of_nodup :
    ∀ (rs seen : List (List Cell)), rs.Nodup → (∀ r ∈ rs, r ∉ seen) →
      keepFlagsAux seen rs = List.replicate rs.length true := by
  intro rs
  induction rs with
  | nil => intro seen _ _; rfl
  | cons r rs2 ih =>
    intro seen hnd hnin
    have h1 : r ∉ seen := hnin r (List.mem_cons_self r rs2)
    have h2 : rs2.Nodup := (List.nodup_cons.mp hnd).2
    have h3 : r ∉ rs2 := (List.nodup_cons.mp hnd).1
    have h4 : ∀ x ∈ rs2, x ∉ r :: seen := by
      intro x hx hmem
      rcases List.mem_cons.mp hmem with rfl | hm
      · exact h3 hx
      · exact hnin x (List.mem_cons_of_mem r hx) hm
    simp [keepFlagsAux, h1, ih (r :: seen) h2 h4, List.replicate]

/-- Transposing commutes with masking: masking every column with the same
flags and then reading rows is reading rows and then masking them. -/
theorem rowsAux_mask (flags : List Bool) :
    ∀ (cols : List (List Cell)), (∀ c ∈ cols, c.length = flags.length) →
      rowsAux (countTrue flags) (cols.map (maskList flags)) =
        maskList flags (rowsAux flags.length cols) := by
  induction flags with
  | nil => intro cols h; rfl
  | cons b fs ih =>
    intro cols h
    have hcols : ∀ c ∈ cols, ∃ hd tl, c = hd :: tl := by
      intro c hc
      have hl := h c hc
      cases c with
      | nil => simp at hl
      | cons hd tl => exact ⟨hd, tl, rfl⟩
    have htails : ∀ c ∈ cols.map List.tail, c.length = fs.length := by
      intro c hc
      rcases List.mem_map.mp hc with ⟨c0, hc0, rfl⟩
      have hl := h c0 hc0
      rcases hcols c0 hc0 with ⟨hd, tl, rfl⟩
      simpa using hl
    cases b with
    | true =>
      have hmap : cols.map (maskList (true :: fs)) =
          cols.map fun c => c.headD Cell.missing :: maskList fs c.tail := by
        apply List.map_congr_left
        intro c hc
        rcases hcols c hc with ⟨hd, tl, rfl⟩
        simp [maskList]
      rw [hmap]
      show rowsAux (countTrue fs + 1) _ = _
      rw [rowsAux]
      have hheads : ((cols.map fun c => c.headD Cell.missing :: maskList fs c.tail).map
          fun c => c.headD Cell.missing) = cols.map fun c => c.headD Cell.missing := by
        rw [List.map_map]
        apply List.map_congr_left
        intro c _
        rfl
      have htls : ((cols.map fun c => c.headD Cell.missing :: maskList fs c.tail).map
          List.tail) = (cols.map List.tail).map (maskList fs) := by
        rw [List.map_map, List.map_map]
        apply List.map_congr_left
        intro c _
        rfl
      rw [hheads, htls, ih (cols.map List.tail) htails]
      show _ = maskList (true :: fs) (rowsAux (fs.length + 1) cols)
      rw [rowsAux]
      simp [maskList]
    | false =>
      have hmap : cols.map (maskList (false :: fs)) =
          (cols.map List.tail).map (maskList fs) := by
        rw [List.map_map]
        apply List.map_congr_left
        intro c hc
        rcases hcols c hc with ⟨hd, tl, rfl⟩
        simp [maskList, Function.comp]
      rw [hmap]
      show rowsAux (countTrue fs) _ = _
      rw [ih (cols.map List.tail) htails]
      show _ = maskList (false :: fs) (rowsAux (fs.length + 1) cols)
      rw [rowsAux]
      simp [maskList]

/-- The row view of drop_duplicates: the surviving rows are exactly the
mask of the original rows by the keep-flags. -/
theorem rows_remove_duplicates (d : DataFrame) (h : d.Rect) :
    (remove_duplicates d).rows = maskList (keepFlags d.rows) d.rows := by
  have hflen : (keepFlags d.rows).length = d.nrows := by
    unfold keepFlags
    rw [keepFlagsAux_length]
    unfold DataFrame.rows
    rw [rowsAux_length]
  have hcells : (remove_duplicates d).cols.map Column.cells =
      (d.cols.map Column.cells).map (maskList (keepFlags d.rows)) := by
    unfold remove_duplicates
    simp [List.map_map, Function.comp]
  have hlens : ∀ c ∈ d.cols.map Column.cells, c.length = (keepFlags d.rows).length := by
    intro c hc
    rcases List.mem_map.mp hc with ⟨c0, hc0, rfl⟩
    rw [hflen]
    exact h c0 hc0
  have hnr : (remove_duplicates d).nrows = countTrue (keepFlags d.rows) := by
    cases hd : d.cols with
    | nil =>
      have hrows : d.rows = [] := by
        unfold DataFrame.rows DataFrame.nrows
        rw [hd]
        rfl
      rw [hrows]
      unfold remove_duplicates DataFrame.nrows
      rw [hd]
      rfl
    | cons c cs =>
      have hc : c ∈ d.cols := by rw [hd]; exact List.mem_cons_self c cs
      have hclen : c.cells.length = (keepFlags d.rows).length := by
        rw [hflen]; exact h c hc
      unfold remove_duplicates DataFrame.nrows
      rw [hd]
      simp only [List.map_cons]
      exact maskList_length _ _ hclen
  show rowsAux (remove_duplicates d).nrows ((remove_duplicates d).cols.map Column.cells) = _
  rw [hnr, hcells, rowsAux_mask _ _ hlens, hflen]
  rfl

/-! ## Lemmas about fix_inconsistent_formats -/

theorem toDatetimeCoerce_idem (x : Cell) :
    toDatetimeCoerce (toDatetimeCoerce x) = toDatetimeCoerce x := by
  cases x <;> rfl

theorem strTitleCell_idem (x : Cell) : strTitleCell (strTitleCell x) = strTitleCell x := by
  cases x with
  | str t =>
    show Cell.str (pyTitle (pyTitle t)) = Cell.str (pyTitle t)
    rw [pyTitle_idem]
  | num q => rfl
  | time t => rfl
  | missing => rfl

theorem fixColumn_numeric (c : Column) (h : c.dtype = .float64 ∨ c.dtype = .int64) :
    fixColumn c = c := by
  rcases h with h | h <;> simp [fixColumn, h]

theorem fixColumn_object (c : Column) (h : c.dtype = .object) :
    fixColumn c = ⟨c.name, c.dtype, c.cells.map strTitleCell⟩ := by
  simp [fixColumn, h]

theorem fixColumn_datetime (c : Column) (h : c.dtype = .datetime64) :
    fixColumn c = ⟨c.name, c.dtype, c.cells.map toDatetimeCoerce⟩ := by
  simp [fixColumn, h]

theorem fixColumn_idem (c : Column) : fixColumn (fixColumn c) = fixColumn c := by
  by_cases h1 : c.dtype = .datetime64
  · rw [fixColumn_datetime c h1,
      fixColumn_datetime ⟨c.name, c.dtype, c.cells.map toDatetimeCoerce⟩ h1]
    show Column.mk c.name c.dtype ((c.cells.map toDatetimeCoerce).map toDatetimeCoerce) = _
    rw [List.map_map]
    exact congrArg (Column.mk c.name c.dtype)
      (List.map_congr_left fun x _ => toDatetimeCoerce_idem x)
  · by_cases h2 : c.dtype = .object
    · rw [fixColumn_object c h2,
        fixColumn_object ⟨c.name, c.dtype, c.cells.map strTitleCell⟩ h2]
      show Column.mk c.name c.dtype ((c.cells.map strTitleCell).map strTitleCell) = _
      rw [List.map_map]
      exact congrArg (Column.mk c.name c.dtype)
        (List.map_congr_left fun x _ => strTitleCell_idem x)
    · have h3 : c.dtype = .float64 ∨ c.dtype = .int64 := by
        cases hdt : c.dtype
        · left; rfl
        · right; rfl
        · exact absurd hdt h2
        · exact absurd hdt h1
      rw [fixColumn_numeric c h3, fixColumn_numeric c h3]

theorem fix_inconsistent_formats_idem (d : DataFrame) :
    fix_inconsistent_formats (fix_inconsistent_formats d) = fix_inconsistent_formats d := by
  show DataFrame.mk ((d.cols.map fixColumn).map fixColumn) = DataFrame.mk (d.cols.map fixColumn)
  rw [List.map_map]
  exact congrArg DataFrame.mk (List.map_congr_left fun c _ => fixColumn_idem c)

/-! ## Lemmas about remove_duplicates -/

theorem rows_length_eq_nrows (d : DataFrame) : d.rows.length = d.nrows :=
  rowsAux_length _ _

theorem nrows_remove_duplicates (d : DataFrame) (h : d.Rect) :
    (remove_duplicates d).nrows = countTrue (keepFlags d.rows) := by
  have hflen : (keepFlags d.rows).length = d.nrows := by
    unfold keepFlags
    rw [keepFlagsAux_length]
    exact rows_length_eq_nrows d
  cases hd : d.cols with
  | nil =>
    have hrows : d.rows = [] := by
      unfold DataFrame.rows DataFrame.nrows
      rw [hd]
      rfl
    rw [hrows]
    unfold remove_duplicates DataFrame.nrows
    rw [hd]
    rfl
  | cons c cs =>
    have hc : c ∈ d.cols := by rw [hd]; exact List.mem_cons_self c cs
    have hclen : c.cells.length = (keepFlags d.rows).length := by
      rw [hflen]; exact h c hc
    unfold remove_duplicates DataFrame.nrows
    rw [hd]
    simp only [List.map_cons]
    exact maskList_length _ _ hclen

theorem rect_remove_duplicates (d : DataFrame) (h : d.Rect) :
    (remove_duplicates d).Rect := by
  intro c2 hc2
  have hc2m : c2 ∈ d.cols.map fun c =>
      Column.mk c.name c.dtype (maskList (keepFlags d.rows) c.cells) := hc2
  rcases List.mem_map.mp hc2m with ⟨c, hc, rfl⟩
  show (maskList (keepFlags d.rows) c.cells).length = (remove_duplicates d).nrows
  rw [nrows_remove_duplicates d h]
  apply maskList_length
  unfold keepFlags
  rw [keepFlagsAux_length, rows_length_eq_nrows]
  exact h c hc

theorem remove_duplicates_idem (d : DataFrame) (h : d.Rect) :
    remove_duplicates (remove_duplicates d) = remove_duplicates d := by
  have hrows2 : (remove_duplicates d).rows = maskList (keepFlags d.rows) d.rows :=
    rows_remove_duplicates d h
  have hnodup : (remove_duplicates d).rows.Nodup := by
    rw [hrows2]
    exact (maskKeep_nodup d.rows []).1
  have hflags : keepFlags (remove_duplicates d).rows =
      List.replicate (remove_duplicates d).rows.length true :=
    keepFlagsAux_of_nodup _ [] hnodup fun r _ => List.not_mem_nil r
  have hrect2 : (remove_duplicates d).Rect := rect_remove_duplicates d h
  have hcells : ∀ c ∈ (remove_duplicates d).cols,
      maskList (keepFlags (remove_duplicates d).rows) c.cells = c.cells := by
    intro c hc
    have hlen : c.cells.length = (remove_duplicates d).rows.length := by
      rw [rows_length_eq_nrows]
      exact hrect2 c hc
    rw [hflags, ← hlen, maskList_replicate_true]
  have hmap : ((remove_duplicates d).cols.map fun c =>
      Column.mk c.name c.dtype (maskList (keepFlags (remove_duplicates d).rows) c.cells)) =
      (remove_duplicates d).cols := by
    conv_rhs => rw [← List.map_id (remove_duplicates d).cols]
    apply List.map_congr_left
    intro c hc
    rw [hcells c hc]
    rfl
  show DataFrame.mk _ = remove_duplicates d
  rw [hmap]

theorem removedCount_idem (d : DataFrame) (h : d.Rect) :
    removedCount (remove_duplicates d) = 0 := by
  unfold removedCount
  rw [remove_duplicates_idem d h]
  omega

/-! ## Lemmas about imputation -/

theorem imputeColumn_numeric_mean (c : Column) (h : c.dtype = .float64 ∨ c.dtype = .int64)
    (hnv : numVals c.cells ≠ []) :
    imputeColumn c = .ok ⟨c.name, c.dtype,
      fillna (.num ((numVals c.cells).sum / ((numVals c.cells).length : Rat))) c.cells⟩ := by
  unfold imputeColumn
  rw [if_pos h]
  unfold seriesMean
  rw [if_neg fun hl => hnv (List.length_eq_zero.mp hl)]

theorem imputeColumn_numeric_allMissing (c : Column)
    (h : c.dtype = .float64 ∨ c.dtype = .int64) (hnv : numVals c.cells = []) :
    imputeColumn c = .ok c := by
  unfold imputeColumn
  rw [if_pos h]
  unfold seriesMean
  rw [if_pos (by rw [hnv]; rfl)]

theorem imputeColumn_mode (c : Column) (h : ¬(c.dtype = .float64 ∨ c.dtype = .int64))
    (hne : presentCells c.cells ≠ []) :
    ∃ m, imputeColumn c = .ok ⟨c.name, c.dtype, fillna m c.cells⟩ ∧
      m ∈ presentCells c.cells ∧
      (presentCells c.cells).count m = maxCount (presentCells c.cells) ∧
      ∀ w ∈ presentCells c.cells,
        (presentCells c.cells).count w = maxCount (presentCells c.cells) → CellLe m w := by
  rcases seriesModeFirst_spec c.cells hne with ⟨m, hm, hmem, hcount, hmin⟩
  refine ⟨m, ?_, hmem, hcount, hmin⟩
  unfold imputeColumn
  rw [if_neg h, hm]

theorem imputeCols_ok :
    ∀ (cols : List Column), (∀ c ∈ cols, ∃ c2, imputeColumn c = .ok c2) →
    ∃ cols2, imputeCols cols = .ok cols2 ∧ cols2.length = cols.length ∧
      ∀ i, (hi : i < cols.length) → (hi2 : i < cols2.length) →
        imputeColumn cols[i] = .ok cols2[i] := by
  intro cols
  induction cols with
  | nil =>
    intro _
    exact ⟨[], rfl, rfl, fun i hi _ => absurd hi (Nat.not_lt_zero i)⟩
  | cons c cs ih =>
    intro h
    rcases h c (List.mem_cons_self c cs) with ⟨c2, hc2⟩
    rcases ih (fun x hx => h x (List.mem_cons_of_mem c hx)) with ⟨cs2, hcs2, hlen, hidx⟩
    refine ⟨c2 :: cs2, ?_, by simp [hlen], ?_⟩
    · unfold imputeCols
      rw [hc2, hcs2]
    · intro i hi hi2
      cases i with
      | zero => simpa using hc2
      | succ j =>
        have hj : j < cs.length := by simpa using hi
        have hj2 : j < cs2.length := by simpa using hi2
        simpa using hidx j hj hj2

/-! ## Lemmas about loading -/

theorem inferDtype_ne_datetime (raw : List (Option Str)) :
    inferDtype raw ≠ Dtype.datetime64 := by
  unfold inferDtype
  split
  · split
    · exact fun h => Dtype.noConfusion h
    · exact fun h => Dtype.noConfusion h
  · exact fun h => Dtype.noConfusion h

theorem read_csv_content_cols (header : List Str) (rawRows : List (List (Option Str)))
    (d : DataFrame) (h : read_csv (.content header rawRows) = .ok d) :
    d.cols = (List.range header.length).map fun j =>
      inferColumn (header.getD j []) (rawRows.map fun r => r.getD j none) := by
  have h3 : DataFrame.mk ((List.range header.length).map fun j =>
      inferColumn (header.getD j []) (rawRows.map fun r => r.getD j none)) = d := by
    have h2 := h
    unfold read_csv at h2
    exact Except.ok.inj h2
  rw [← h3]

theorem loaded_no_datetime (header : List Str) (rawRows : List (List (Option Str)))
    (d : DataFrame) (h : read_csv (.content header rawRows) = .ok d) :
    ∀ c ∈ d.cols, c.dtype ≠ Dtype.datetime64 := by
  intro c hc
  rw [read_csv_content_cols header rawRows d h] at hc
  rcases List.mem_map.mp hc with ⟨j, _, rfl⟩
  exact inferDtype_ne_datetime _

/-! ## Lemmas about the constructor diagnostics -/

theorem loadErrMsg_fnf_ne_empty (path : Str) :
    loadErrMsg .fileNotFound path ≠ loadErrMsg .emptyData path := by
  intro heq
  have h1 : (loadErrMsg .fileNotFound path)[7]? = some 70 := by
    show (strChars (r"Error: File not found at ") ++ path)[7]? = some 70
    rw [List.getElem?_append,
      if_pos (show 7 < (strChars (r"Error: File not found at ")).length by decide)]
    decide
  rw [heq] at h1
  have h2 : (strChars (r"Error: The file is empty."))[7]? = some 70 := h1
  exact absurd h2 (by decide)

theorem loadErrMsg_fnf_ne_parse (path : Str) :
    loadErrMsg .fileNotFound path ≠ loadErrMsg .parseFailure path := by
  intro heq
  have h1 : (loadErrMsg .fileNotFound path)[7]? = some 70 := by
    show (strChars (r"Error: File not found at ") ++ path)[7]? = some 70
    rw [List.getElem?_append,
      if_pos (show 7 < (strChars (r"Error: File not found at ")).length by decide)]
    decide
  rw [heq] at h1
  have h2 : (strChars (r"Error: Could not parse the file."))[7]? = some 70 := h1
  exact absurd h2 (by decide)

theorem loadErrMsg_empty_ne_parse (path : Str) :
    loadErrMsg .emptyData path ≠ loadErrMsg .parseFailure path := by
  intro heq
  have h2 : strChars (r"Error: The file is empty.") =
      strChars (r"Error: Could not parse the file.") := heq
  exact absurd h2 (by decide)

/-! ## Claim theorems and witnesses -/

/-- Claim C2: on every rectangular frame, remove_duplicates keeps exactly the
rows with no earlier equal row (the mask of the row list by the keep-flags),
the survivors form a sublist of the original rows (first occurrences kept in
their relative order), a keep-flag is true precisely when every earlier row
differs, and the reported count equals the number of rows deleted. -/
theorem remove_duplicates_spec (d : DataFrame) (h : d.Rect) :
    (remove_duplicates d).rows = maskList (keepFlags d.rows) d.rows ∧
    ((remove_duplicates d).rows).Sublist d.rows ∧
    (∀ i, (hi : i < d.rows.length) → (hf : i < (keepFlags d.rows).length) →
      ((keepFlags d.rows)[i] = true ↔ ∀ k, (hk : k < i) → d.rows[k] ≠ d.rows[i])) ∧
    removedCount d = d.rows.length - ((remove_duplicates d).rows).length := by
  have h1 := rows_remove_duplicates d h
  refine ⟨h1, ?_, ?_, ?_⟩
  · rw [h1]
    exact maskList_sublist _ _
  · intro i hi hf
    have h2 := keepFlagsAux_true_iff d.rows [] i hi hf
    show (keepFlagsAux [] d.rows)[i] = true ↔ _
    rw [h2]
    constructor
    · exact fun hp => hp.2
    · exact fun hp => ⟨List.not_mem_nil _, hp⟩
  · unfold removedCount
    rw [rows_length_eq_nrows d, rows_length_eq_nrows (remove_duplicates d)]

/-- Witness for C2 at the concrete example of the specification: the rows
(1, x), (2, y), (1, x) reduce to (1, x), (2, y) and the reported count is
1. -/
theorem remove_duplicates_spec_witness :
    dfDupExample.Rect ∧
    removedCount dfDupExample = 1 ∧
    (remove_duplicates dfDupExample).rows =
      [[Cell.num 1, Cell.str [120]], [Cell.num 2, Cell.str [121]]] ∧
    ((remove_duplicates dfDupExample).rows = maskList (keepFlags dfDupExample.rows)
        dfDupExample.rows ∧
      ((remove_duplicates dfDupExample).rows).Sublist dfDupExample.rows ∧
      (∀ i, (hi : i < dfDupExample.rows.length) →
        (hf : i < (keepFlags dfDupExample.rows).length) →
        ((keepFlags dfDupExample.rows)[i] = true ↔
          ∀ k, (hk : k < i) → dfDupExample.rows[k] ≠ dfDupExample.rows[i])) ∧
      removedCount dfDupExample =
        dfDupExample.rows.length - ((remove_duplicates dfDupExample).rows).length) :=
  ⟨by decide, by decide, by decide, remove_duplicates_spec dfDupExample (by decide)⟩

/-- Claim C7: remove_duplicates run twice removes 0 rows the second time and
leaves the frame unchanged, and fix_inconsistent_formats is idempotent. -/
theorem cleaning_idempotent (d : DataFrame) (h : d.Rect) :
    removedCount (remove_duplicates d) = 0 ∧
    remove_duplicates (remove_duplicates d) = remove_duplicates d ∧
    fix_inconsistent_formats (fix_inconsistent_formats d) = fix_inconsistent_formats d :=
  ⟨removedCount_idem d h, remove_duplicates_idem d h, fix_inconsistent_formats_idem d⟩

/-- Witness for C7 at a concrete frame with a duplicated row and a text
column. -/
theorem cleaning_idempotent_witness :
    dfIdemExample.Rect ∧
    (removedCount (remove_duplicates dfIdemExample) = 0 ∧
      remove_duplicates (remove_duplicates dfIdemExample) = remove_duplicates dfIdemExample ∧
      fix_inconsistent_formats (fix_inconsistent_formats dfIdemExample) =
        fix_inconsistent_formats dfIdemExample) :=
  ⟨by decide, cleaning_idempotent dfIdemExample (by decide)⟩

/-- Claim C4 (amended): fix_inconsistent_formats leaves numeric (float64 and
int64) columns unchanged and rewrites every string cell of every text
(object) column with Python title-case semantics, in which a word boundary
falls at every uncased character, not only at whitespace; missing cells stay
missing.  See the counterexample for the difference from the
whitespace-delimited boundary rule of the claim. -/
theorem fix_formats_text_spec (d : DataFrame) :
    (fix_inconsistent_formats d).cols.length = d.cols.length ∧
    ∀ i, (hi : i < d.cols.length) → (hi2 : i < (fix_inconsistent_formats d).cols.length) →
      ((fix_inconsistent_formats d).cols[i].name = d.cols[i].name ∧
       (fix_inconsistent_formats d).cols[i].dtype = d.cols[i].dtype ∧
       ((d.cols[i].dtype = Dtype.float64 ∨ d.cols[i].dtype = Dtype.int64) →
         (fix_inconsistent_formats d).cols[i] = d.cols[i]) ∧
       (d.cols[i].dtype = Dtype.object →
         (fix_inconsistent_formats d).cols[i].cells.length = d.cols[i].cells.length ∧
         ∀ j, (hj : j < d.cols[i].cells.length) →
           (hj2 : j < (fix_inconsistent_formats d).cols[i].cells.length) →
           ((∀ t, d.cols[i].cells[j] = Cell.str t →
              (fix_inconsistent_formats d).cols[i].cells[j] = Cell.str (pyTitle t)) ∧
            (d.cols[i].cells[j] = Cell.missing →
              (fix_inconsistent_formats d).cols[i].cells[j] = Cell.missing)))) := by
  have hcols : (fix_inconsistent_formats d).cols = d.cols.map fixColumn := rfl
  constructor
  · rw [hcols, List.length_map]
  · intro i hi hi2
    have hgi : (fix_inconsistent_formats d).cols[i] = fixColumn d.cols[i] :=
      List.getElem_map fixColumn
    refine ⟨?_, ?_, ?_, ?_⟩
    · rw [hgi]
      by_cases h1 : d.cols[i].dtype = Dtype.datetime64
      · rw [fixColumn_datetime _ h1]
      · by_cases h2 : d.cols[i].dtype = Dtype.object
        · rw [fixColumn_object _ h2]
        · have h3 : d.cols[i].dtype = Dtype.float64 ∨ d.cols[i].dtype = Dtype.int64 := by
            cases hdt : d.cols[i].dtype
            · left; rfl
            · right; rfl
            · exact absurd hdt h2
            · exact absurd hdt h1
          rw [fixColumn_numeric _ h3]
    · rw [hgi]
      by_cases h1 : d.cols[i].dtype = Dtype.datetime64
      · rw [fixColumn_datetime _ h1]
      · by_cases h2 : d.cols[i].dtype = Dtype.object
        · rw [fixColumn_object _ h2]
        · have h3 : d.cols[i].dtype = Dtype.float64 ∨ d.cols[i].dtype = Dtype.int64 := by
            cases hdt : d.cols[i].dtype
            · left; rfl
            · right; rfl
            · exact absurd hdt h2
            · exact absurd hdt h1
          rw [fixColumn_numeric _ h3]
    · intro h3
      rw [hgi, fixColumn_numeric _ h3]
    · intro h2
      rw [hgi, fixColumn_object _ h2]
      constructor
      · exact List.length_map _ _
      · intro j hj hj2
        have hcell : (d.cols[i].cells.map strTitleCell)[j] = strTitleCell d.cols[i].cells[j] := by
          exact List.getElem_map strTitleCell
        constructor
        · intro t ht
          show (d.cols[i].cells.map strTitleCell)[j] = Cell.str (pyTitle t)
          rw [hcell, ht]
          rfl
        · intro hm
          show (d.cols[i].cells.map strTitleCell)[j] = Cell.missing
          rw [hcell, hm]
          rfl

/-- Counterexample for C4 as stated: on the loaded one-column text frame
holding a-b, the script produces A-B (both letters uppercased, because the
hyphen is a word boundary for Python title casing), while the
whitespace-delimited rule of the claim demands A-b.  The claim as stated is
therefore false on this input. -/
theorem fix_formats_word_boundary_cex :
    read_csv (.content [strChars (r"c")] [[some (strChars (r"a-b"))]]) = .ok dfHyphenExample ∧
    fix_inconsistent_formats dfHyphenExample =
      DataFrame.mk [⟨[99], Dtype.object, [Cell.str (strChars (r"A-B"))]⟩] ∧
    wsTitle (strChars (r"a-b")) = strChars (r"A-b") ∧
    strChars (r"A-B") ≠ strChars (r"A-b") :=
  ⟨by decide, by decide, by decide, by decide⟩

/-- Claim C5 (amended): no column of a loaded frame is temporal-typed
(read_csv infers only int64, float64 or object), so the temporal re-parse
branch of fix_inconsistent_formats never runs on loaded data; and on a
datetime64 column, whose cells can only be timestamps or NaT, re-parsing
with coerced errors is the identity and raises nothing.  A string cell such
as not-a-date can only live in a text column, where it is title-cased, not
turned into a missing cell; see the counterexample. -/
theorem fix_formats_temporal_spec (header : List Str) (rawRows : List (List (Option Str)))
    (d : DataFrame) (h : read_csv (.content header rawRows) = .ok d) :
    (∀ c ∈ d.cols, c.dtype ≠ Dtype.datetime64) ∧
    (∀ c : Column, c.dtype = Dtype.datetime64 →
      (∀ x ∈ c.cells, x = Cell.missing ∨ ∃ t, x = Cell.time t) → fixColumn c = c) := by
  refine ⟨loaded_no_datetime header rawRows d h, ?_⟩
  intro c hdt hcells
  rw [fixColumn_datetime c hdt]
  have hmap : c.cells.map toDatetimeCoerce = c.cells := by
    conv_rhs => rw [← List.map_id c.cells]
    apply List.map_congr_left
    intro x hx
    rcases hcells x hx with rfl | ⟨t, rfl⟩
    · rfl
    · rfl
  rw [hmap]

/-- Witness for C5 at the loaded one-column frame holding not-a-date, and at
a concrete datetime64 column. -/
theorem fix_formats_temporal_witness :
    ((∀ c ∈ dfNotADate.cols, c.dtype ≠ Dtype.datetime64) ∧
      (∀ c : Column, c.dtype = Dtype.datetime64 →
        (∀ x ∈ c.cells, x = Cell.missing ∨ ∃ t, x = Cell.time t) → fixColumn c = c)) ∧
    fixColumn colTimeExample = colTimeExample :=
  ⟨fix_formats_temporal_spec [strChars (r"d")] [[some (strChars (r"not-a-date"))]]
      dfNotADate (by decide),
    by decide⟩

/-- Counterexample for C5 as stated: the specification example says a
temporal column cell not-a-date becomes a missing cell after the format fix.
In the program, a column holding not-a-date loads as a text column, and the
fix title-cases the cell to Not-A-Date, which is not a missing cell. -/
theorem temporal_reparse_cex :
    read_csv (.content [strChars (r"d")] [[some (strChars (r"not-a-date"))]]) =
      .ok dfNotADate ∧
    fix_inconsistent_formats dfNotADate =
      DataFrame.mk [⟨[100], Dtype.object, [Cell.str (strChars (r"Not-A-Date"))]⟩] ∧
    Cell.str (strChars (r"Not-A-Date")) ≠ Cell.missing :=
  ⟨by decide, by decide, by decide⟩

/-- Claim C6: the constructor has exactly the three modelled load failure
modes; each leaves the dataset null and prints a diagnostic distinct from
the other two (the constructor is a total function, so no mode terminates
the program); on well-formed content the dataset is set and a confirmation
is printed. -/
theorem construct_spec (path : Str) :
    construct path .absent = (⟨none⟩, loadErrMsg .fileNotFound path) ∧
    construct path .empty = (⟨none⟩, loadErrMsg .emptyData path) ∧
    construct path .malformed = (⟨none⟩, loadErrMsg .parseFailure path) ∧
    (∀ header rawRows, ∃ df, construct path (.content header rawRows) =
      (⟨some df⟩, strChars (r"Data successfully loaded."))) ∧
    loadErrMsg .fileNotFound path ≠ loadErrMsg .emptyData path ∧
    loadErrMsg .fileNotFound path ≠ loadErrMsg .parseFailure path ∧
    loadErrMsg .emptyData path ≠ loadErrMsg .parseFailure path := by
  refine ⟨rfl, rfl, rfl, ?_, loadErrMsg_fnf_ne_empty path, loadErrMsg_fnf_ne_parse path,
    loadErrMsg_empty_ne_parse path⟩
  intro header rawRows
  exact ⟨_, rfl⟩

/-- Claim C8: serialization writes the header row of column names first and
then exactly the data rows, each with one field per column and no implicit
row-index column; a successful save writes the serialized text and reports
the output path; a failed write is caught, reported with the underlying
message, and leaves the state unchanged with nothing written. -/
theorem save_clean_data_spec (d : DataFrame) (outputPath m : Str) :
    (serialize d).length = d.nrows + 1 ∧
    (serialize d).head? = some (d.cols.map Column.name) ∧
    (∀ r ∈ (serialize d).tail, r.length = d.cols.length) ∧
    save_clean_dataM ⟨some d⟩ outputPath .ok =
      (⟨some d⟩, some (serialize d), strChars (r"Cleaned data saved to ") ++ outputPath) ∧
    save_clean_dataM ⟨some d⟩ outputPath (.err m) =
      (⟨some d⟩, none, strChars (r"Error when saving data: ") ++ m) := by
  refine ⟨?_, rfl, ?_, rfl, rfl⟩
  · show ((d.cols.map Column.name) ::
      d.rows.map fun r => (d.cols.zip r).map fun p => fieldText p.1.dtype p.2).length =
      d.nrows + 1
    rw [List.length_cons, List.length_map, rows_length_eq_nrows]
  · intro r hr
    have hr2 : r ∈ d.rows.map fun row =>
        (d.cols.zip row).map fun p => fieldText p.1.dtype p.2 := hr
    rcases List.mem_map.mp hr2 with ⟨row, hrow, rfl⟩
    rw [List.length_map, List.length_zip]
    have hlen : row.length = d.cols.length := by
      have h2 := rowsAux_row_length d.nrows (d.cols.map Column.cells) row hrow
      simpa using h2
    rw [hlen, Nat.min_self]

/-- Claim C9: when loading fails, the driver runs to completion returning
normally (the ok result models a process exit with code 0), the dataset
stays null throughout (no mutation is possible), nothing is written, and the
printed lines are exactly the load diagnostic followed by the six
advisories. -/
theorem load_failure_pipeline (path outPath : Str) (fs : FileState) (w : FsOutcome)
    (e : LoadError) (h : read_csv fs = .error e) :
    runPipeline path outPath fs w =
      .ok (⟨none⟩, [loadErrMsg e path,
        strChars (r"No data to summarize."),
        strChars (r"No data to analyze for missing values."),
        strChars (r"No data to handle missing values."),
        strChars (r"No data from which to remove duplicates."),
        strChars (r"No data to fix formats."),
        strChars (r"No data to save.")], none) := by
  unfold runPipeline construct
  rw [h]
  rfl

/-- Witness for C9 with the driver paths of the script, an absent input file
and a writable output location. -/
theorem load_failure_pipeline_witness :
    runPipeline (strChars (r"path_to_dirty_dataset.csv"))
        (strChars (r"path_to_clean_dataset.csv")) .absent .ok =
      .ok (⟨none⟩, [loadErrMsg .fileNotFound (strChars (r"path_to_dirty_dataset.csv")),
        strChars (r"No data to summarize."),
        strChars (r"No data to analyze for missing values."),
        strChars (r"No data to handle missing values."),
        strChars (r"No data from which to remove duplicates."),
        strChars (r"No data to fix formats."),
        strChars (r"No data to save.")], none) :=
  load_failure_pipeline (strChars (r"path_to_dirty_dataset.csv"))
    (strChars (r"path_to_clean_dataset.csv")) .absent .ok .fileNotFound rfl

theorem fillna_length (v : Cell) (cells : List Cell) :
    (fillna v cells).length = cells.length := List.length_map _ _

theorem fillna_getElem (v : Cell) (cells : List Cell) (j : Nat) (hj : j < cells.length)
    (hj2 : j < (fillna v cells).length) :
    (fillna v cells)[j] = if cells[j] = Cell.missing then v else cells[j] := by
  show (cells.map fun x => if x = Cell.missing then v else x)[j] = _
  rw [List.getElem_map]

theorem imputeColumn_ok_shape (c c2 : Column) (h : imputeColumn c = .ok c2) :
    c2.name = c.name ∧ c2.dtype = c.dtype ∧ c2.cells.length = c.cells.length := by
  unfold imputeColumn at h
  by_cases hd : c.dtype = .float64 ∨ c.dtype = .int64
  · rw [if_pos hd] at h
    cases hm : seriesMean c.cells with
    | some m =>
      rw [hm] at h
      have h2 := Except.ok.inj h
      rw [← h2]
      exact ⟨rfl, rfl, fillna_length _ _⟩
    | none =>
      rw [hm] at h
      have h2 := Except.ok.inj h
      rw [← h2]
      exact ⟨rfl, rfl, rfl⟩
  · rw [if_neg hd] at h
    cases hm : seriesModeFirst c.cells with
    | some m =>
      rw [hm] at h
      have h2 := Except.ok.inj h
      rw [← h2]
      exact ⟨rfl, rfl, fillna_length _ _⟩
    | none =>
      rw [hm] at h
      exact Except.noConfusion h

/-- Claim C1 (amended): on every well-formed frame whose non-numeric columns
each have at least one present value, handle_missing_values succeeds; a
float64 or int64 column with at least one present numeric value has every
missing cell replaced by the arithmetic mean of its present values and every
present cell kept unchanged; a numeric column with no present value is left
unchanged (its missing cells stay missing); every other column has every
missing cell replaced by a single most frequent present value and every
present cell kept unchanged. -/
theorem handle_missing_values_spec (d : DataFrame) (hWF : d.WF)
    (hp : ∀ c ∈ d.cols, ¬(c.dtype = Dtype.float64 ∨ c.dtype = Dtype.int64) →
      presentCells c.cells ≠ []) :
    ∃ d2, handle_missing_values d = .ok d2 ∧
      d2.cols.length = d.cols.length ∧
      ∀ i, (hi : i < d.cols.length) → (hi2 : i < d2.cols.length) →
        (d2.cols[i].name = d.cols[i].name ∧
         d2.cols[i].dtype = d.cols[i].dtype ∧
         d2.cols[i].cells.length = d.cols[i].cells.length ∧
         ((d.cols[i].dtype = Dtype.float64 ∨ d.cols[i].dtype = Dtype.int64) →
           numVals d.cols[i].cells ≠ [] →
           ∀ j, (hj : j < d.cols[i].cells.length) → (hj2 : j < d2.cols[i].cells.length) →
             d2.cols[i].cells[j] =
               (if d.cols[i].cells[j] = Cell.missing then
                  Cell.num ((numVals d.cols[i].cells).sum /
                    ((numVals d.cols[i].cells).length : Rat))
                else d.cols[i].cells[j])) ∧
         ((d.cols[i].dtype = Dtype.float64 ∨ d.cols[i].dtype = Dtype.int64) →
           numVals d.cols[i].cells = [] → d2.cols[i] = d.cols[i]) ∧
         (¬(d.cols[i].dtype = Dtype.float64 ∨ d.cols[i].dtype = Dtype.int64) →
           ∃ m, m ∈ presentCells d.cols[i].cells ∧
             (presentCells d.cols[i].cells).count m =
               maxCount (presentCells d.cols[i].cells) ∧
             ∀ j, (hj : j < d.cols[i].cells.length) → (hj2 : j < d2.cols[i].cells.length) →
               d2.cols[i].cells[j] =
                 (if d.cols[i].cells[j] = Cell.missing then m
                  else d.cols[i].cells[j]))) := by
  have hok : ∀ c ∈ d.cols, ∃ c2, imputeColumn c = .ok c2 := by
    intro c hc
    by_cases hd : c.dtype = .float64 ∨ c.dtype = .int64
    · cases hnv : numVals c.cells with
      | nil => exact ⟨c, imputeColumn_numeric_allMissing c hd hnv⟩
      | cons q qs =>
        refine ⟨_, imputeColumn_numeric_mean c hd ?_⟩
        rw [hnv]
        exact List.cons_ne_nil q qs
    · rcases imputeColumn_mode c hd (hp c hc hd) with ⟨m, hm, _⟩
      exact ⟨_, hm⟩
  rcases imputeCols_ok d.cols hok with ⟨cols2, hcols2, hlen, hidx⟩
  refine ⟨⟨cols2⟩, ?_, hlen, ?_⟩
  · unfold handle_missing_values
    rw [hcols2]
    rfl
  · intro i hi hi2
    have hiok : imputeColumn d.cols[i] = .ok cols2[i] := hidx i hi hi2
    have hshape := imputeColumn_ok_shape _ _ hiok
    refine ⟨hshape.1, hshape.2.1, hshape.2.2, ?_, ?_, ?_⟩
    · intro hd hnv j hj hj2
      have he := imputeColumn_numeric_mean d.cols[i] hd hnv
      have h2 : cols2[i] = ⟨d.cols[i].name, d.cols[i].dtype,
          fillna (.num ((numVals d.cols[i].cells).sum /
            ((numVals d.cols[i].cells).length : Rat))) d.cols[i].cells⟩ :=
        Except.ok.inj (hiok.symm.trans he)
      have hj3 : j < (fillna (.num ((numVals d.cols[i].cells).sum /
          ((numVals d.cols[i].cells).length : Rat))) d.cols[i].cells).length := by
        rw [fillna_length]
        exact hj
      calc cols2[i].cells[j]
          = (fillna (.num ((numVals d.cols[i].cells).sum /
              ((numVals d.cols[i].cells).length : Rat))) d.cols[i].cells)[j] := by
            congr 1
            rw [h2]
        _ = _ := fillna_getElem _ _ j hj hj3
    · intro hd hnv
      have he := imputeColumn_numeric_allMissing d.cols[i] hd hnv
      exact Except.ok.inj (hiok.symm.trans he)
    · intro hd
      have hc : d.cols[i] ∈ d.cols := List.getElem_mem hi
      rcases imputeColumn_mode d.cols[i] hd (hp _ hc hd) with ⟨m, hm, hmem, hcount, _⟩
      refine ⟨m, hmem, hcount, ?_⟩
      intro j hj hj2
      have h2 : cols2[i] = ⟨d.cols[i].name, d.cols[i].dtype, fillna m d.cols[i].cells⟩ :=
        Except.ok.inj (hiok.symm.trans hm)
      have hj3 : j < (fillna m d.cols[i].cells).length := by
        rw [fillna_length]
        exact hj
      calc cols2[i].cells[j]
          = (fillna m d.cols[i].cells)[j] := by
            congr 1
            rw [h2]
        _ = _ := fillna_getElem _ _ j hj hj3

/-- Witness for C1 at a concrete frame: the numeric column with present
values 1, 3, 2 gets its missing cell filled with the mean 2, and the text
column with values a, a, b gets its missing cell filled with the mode a. -/
theorem handle_missing_values_spec_witness :
    dfImputeExample.WF ∧
    seriesMean [Cell.num 1, Cell.missing, Cell.num 3, Cell.num 2] = some 2 ∧
    seriesModeFirst [Cell.str [97], Cell.str [97], Cell.missing, Cell.str [98]] =
      some (Cell.str [97]) ∧
    (∃ d2, handle_missing_values dfImputeExample = .ok d2 ∧
      d2.cols.length = dfImputeExample.cols.length ∧
      ∀ i, (hi : i < dfImputeExample.cols.length) → (hi2 : i < d2.cols.length) →
        (d2.cols[i].name = dfImputeExample.cols[i].name ∧
         d2.cols[i].dtype = dfImputeExample.cols[i].dtype ∧
         d2.cols[i].cells.length = dfImputeExample.cols[i].cells.length ∧
         ((dfImputeExample.cols[i].dtype = Dtype.float64 ∨
            dfImputeExample.cols[i].dtype = Dtype.int64) →
           numVals dfImputeExample.cols[i].cells ≠ [] →
           ∀ j, (hj : j < dfImputeExample.cols[i].cells.length) →
             (hj2 : j < d2.cols[i].cells.length) →
             d2.cols[i].cells[j] =
               (if dfImputeExample.cols[i].cells[j] = Cell.missing then
                  Cell.num ((numVals dfImputeExample.cols[i].cells).sum /
                    ((numVals dfImputeExample.cols[i].cells).length : Rat))
                else dfImputeExample.cols[i].cells[j])) ∧
         ((dfImputeExample.cols[i].dtype = Dtype.float64 ∨
            dfImputeExample.cols[i].dtype = Dtype.int64) →
           numVals dfImputeExample.cols[i].cells = [] →
           d2.cols[i] = dfImputeExample.cols[i]) ∧
         (¬(dfImputeExample.cols[i].dtype = Dtype.float64 ∨
            dfImputeExample.cols[i].dtype = Dtype.int64) →
           ∃ m, m ∈ presentCells dfImputeExample.cols[i].cells ∧
             (presentCells dfImputeExample.cols[i].cells).count m =
               maxCount (presentCells dfImputeExample.cols[i].cells) ∧
             ∀ j, (hj : j < dfImputeExample.cols[i].cells.length) →
               (hj2 : j < d2.cols[i].cells.length) →
               d2.cols[i].cells[j] =
                 (if dfImputeExample.cols[i].cells[j] = Cell.missing then m
                  else dfImputeExample.cols[i].cells[j])))) :=
  ⟨by decide,
   by
    show (if ([1, 3, 2] : List Rat).length = 0 then none
      else some (([1, 3, 2] : List Rat).sum / (([1, 3, 2] : List Rat).length : Rat))) =
      some 2
    rw [if_neg (by decide)]
    norm_num,
   by decide,
   handle_missing_values_spec dfImputeExample (by decide) (by decide)⟩

/-- Counterexample for C1 as stated: on the loaded frame with one numeric
column whose only cell is missing, handle_missing_values returns the frame
unchanged; the missing cell of a numeric column is not replaced by any value
(no mean of zero present values exists), so the universal claim fails on
this dataset. -/
theorem numeric_mean_cex :
    read_csv (.content [strChars (r"v")] [[none]]) = .ok dfAllMissingV ∧
    handle_missing_values dfAllMissingV = .ok dfAllMissingV ∧
    (∃ c ∈ dfAllMissingV.cols, c.dtype = Dtype.float64 ∧ Cell.missing ∈ c.cells) :=
  ⟨by decide, by decide, by decide⟩

/-- Claim C3, evaluated at the failing input: a CSV with one column whose
single field is an NA token loads as an all-missing float64 column;
handle_missing_values then completes silently, printing the generic success
message while the missing cell is left in place (no NoImputableValue
diagnostic and no skip diagnostic exists anywhere in the program). -/
theorem all_missing_column_silent :
    read_csv (.content [strChars (r"m")] [[none]]) = .ok dfAllMissing ∧
    handle_missing_valuesM ⟨some dfAllMissing⟩ =
      .ok (⟨some dfAllMissing⟩,
        strChars (r"Missing values handled by mean/mode imputation.")) ∧
    (∃ c ∈ dfAllMissing.cols, c.dtype = Dtype.float64 ∧ Cell.missing ∈ c.cells) :=
  ⟨by decide, by decide, by decide⟩

/-- Claim C10: on every non-numeric column with at least one present value,
the fill value mode()[0] used by handle_missing_values is the least value,
in the cell order, among the present values tied for the largest
multiplicity (the first element of the sorted mode list), and every missing
cell is filled with exactly that value.  Being a function of the column,
this choice is deterministic: two runs on the same input give the same
value. -/
theorem mode_tie_break_spec (c : Column)
    (hdt : ¬(c.dtype = Dtype.float64 ∨ c.dtype = Dtype.int64))
    (hne : presentCells c.cells ≠ []) :
    ∃ m, seriesModeFirst c.cells = some m ∧
      imputeColumn c = .ok ⟨c.name, c.dtype, fillna m c.cells⟩ ∧
      m ∈ presentCells c.cells ∧
      (presentCells c.cells).count m = maxCount (presentCells c.cells) ∧
      ∀ w ∈ presentCells c.cells,
        (presentCells c.cells).count w = maxCount (presentCells c.cells) → CellLe m w := by
  rcases seriesModeFirst_spec c.cells hne with ⟨m, hm, hmem, hcount, hmin⟩
  refine ⟨m, hm, ?_, hmem, hcount, hmin⟩
  unfold imputeColumn
  rw [if_neg hdt, hm]

/-- Witness for C10 at a column whose present values b and a are tied: the
fill value is a, the lexicographically smaller of the tied pair. -/
theorem mode_tie_break_spec_witness :
    (¬(colTieExample.dtype = Dtype.float64 ∨ colTieExample.dtype = Dtype.int64)) ∧
    presentCells colTieExample.cells ≠ [] ∧
    seriesModeFirst colTieExample.cells = some (Cell.str [97]) ∧
    (∃ m, seriesModeFirst colTieExample.cells = some m ∧
      imputeColumn colTieExample = .ok ⟨colTieExample.name, colTieExample.dtype,
        fillna m colTieExample.cells⟩ ∧
      m ∈ presentCells colTieExample.cells ∧
      (presentCells colTieExample.cells).count m = maxCount (presentCells colTieExample.cells) ∧
      ∀ w ∈ presentCells colTieExample.cells,
        (presentCells colTieExample.cells).count w =
          maxCount (presentCells colTieExample.cells) → CellLe m w) :=
  ⟨by decide, by decide, by decide,
    mode_tie_break_spec colTieExample (by decide) (by decide)⟩

end SmartClean
